import Mathlib

/-!
Verification of the citenet crawl-orchestration engine (citenet/citenet.py).

The Python source is shallowly embedded: strings are lists of characters,
Python slicing / find / strip get faithful counterparts (including negative
index clamping), the SQLite tables become lists of rows with the primary-key
checks of the schema, and the event handlers become pure state-transition
functions.  All definitions are executable and decidable on concrete inputs.
-/

set_option maxHeartbeats 1000000

namespace Citenet

/-! ## Python string primitives -/

/-- Python whitespace, as used by str.strip(). -/
def pyIsSpace (c : Char) : Bool :=
  c = ' ' || c = '\t' || c = '\n' || c = '\r' || c = '\x0b' || c = '\x0c'

/-- Python str.strip(): removes whitespace from both ends. -/
def pyStrip (l : List Char) : List Char :=
  ((l.dropWhile pyIsSpace).reverse.dropWhile pyIsSpace).reverse

/-- Clamping of one slice index, as Python slicing does it:
negative indices count from the end, everything is clamped into [0, len]. -/
def pyIndex (n : ℕ) (i : Int) : ℕ :=
  (if i < 0 then max ((n : Int) + i) 0 else min i (n : Int)).toNat

/-- Python slice t[a:b]. -/
def pySlice (l : List Char) (a b : Int) : List Char :=
  (l.take (pyIndex l.length b)).drop (pyIndex l.length a)

/-- Scan for the leftmost occurrence of sub at position at least i; the
position counter i travels along with the remaining suffix. -/
def findSubAux (sub : List Char) : List Char → ℕ → Option ℕ
  | l, i =>
    if sub.isPrefixOf l then some i
    else
      match l with
      | [] => none
      | _ :: rest => findSubAux sub rest (i + 1)

/-- The clamped scan start of Python str.find: a negative start counts from
the end and is floored at 0. -/
def pyStart (s : List Char) (start : Int) : Int :=
  if start < 0 then max ((s.length : Int) + start) 0 else start

/-- Python str.find(sub, start) for a non-empty sub: the start index is
clamped, -1 signals absence. -/
def pyFind (s sub : List Char) (start : Int) : Int :=
  if pyStart s start ≤ (s.length : Int) then
    match findSubAux sub (s.drop (pyStart s start).toNat) (pyStart s start).toNat with
    | some r => (r : Int)
    | none => -1
  else -1

/-- Python str.replace(c, rep) for a single-character pattern. -/
def pyReplaceChar (c : Char) (rep : List Char) (l : List Char) : List Char :=
  (l.map (fun x => if x = c then rep else [x])).flatten

/-- Python str.replace("''", "'"): left-to-right, non-overlapping.  The
same collapse is what a single-quoted SQL literal performs on its body, so
this also decodes the value stored by an INSERT that wraps values in
single quotes. -/
def unescQuotes : List Char → List Char
  | [] => []
  | [c] => [c]
  | c :: c' :: rest =>
    if c = '\'' ∧ c' = '\'' then '\'' :: unescQuotes rest
    else c :: unescQuotes (c' :: rest)

/-- Collapse doubled double quotes left-to-right: the value a double-quoted
SQL literal denotes under SQLite's double-quoted-string fallback, used by
the SELECT lookups and the citationrelationship INSERT. -/
def dqUnescape : List Char → List Char
  | [] => []
  | [c] => [c]
  | c :: c' :: rest =>
    if c = '"' ∧ c' = '"' then '"' :: dqUnescape rest
    else c :: dqUnescape (c' :: rest)

/-- The field preparation of save_publication: v.replace("'", "''") followed
by quote_identifier, which doubles every double quote (the NUL handling of
quote_identifier is irrelevant for NUL-free fields). -/
def pyEscape (s : String) : String :=
  String.mk (pyReplaceChar '"' ['"', '"'] (pyReplaceChar '\'' ['\'', '\''] s.data))

/-- Python str.replace("''", "'") on a String, the title normalisation used
by the second dedup lookup of get_existing_pub_id. -/
def unquoteTitle (s : String) : String :=
  String.mk (unescQuotes s.data)

/-- The value stored when s is embedded in a single-quoted SQL literal
(the publications INSERT): doubled apostrophes collapse, double quotes are
kept as written. -/
def sqlSingle (s : String) : String :=
  String.mk (unescQuotes s.data)

/-- The value SQLite compares or stores when s is embedded in a
double-quoted literal (the dedup SELECTs and the citationrelationship
INSERT): doubled double quotes collapse, apostrophes are kept as
written. -/
def sqlDouble (s : String) : String :=
  String.mk (dqUnescape s.data)

/-- True when s contains neither an apostrophe nor a double quote; for such
strings the Python escaping and both SQL literal decodings are the
identity. -/
def quoteFree (s : String) : Bool :=
  s.data.all (fun c => c != '\'' && c != '"')

/-! ## Python dict (insertion-ordered, assignment overwrites) -/

abbrev Dict := List (String × String)

/-- res[k] = v on a Python dict: overwrite in place if the key exists,
otherwise append. -/
def dset (d : Dict) (k v : String) : Dict :=
  if d.any (fun e => e.1 = k) then d.map (fun e => if e.1 = k then (k, v) else e)
  else d ++ [(k, v)]

/-- Dictionary lookup. -/
def dget (d : Dict) (k : String) : Option String :=
  (d.find? (fun e => e.1 = k)).map (fun e => e.2)

/-- Key membership. -/
def dmem (d : Dict) (k : String) : Bool :=
  (dget d k).isSome

/-! ## BibtexParser: findNextBracket and bibtex2dic -/

/-- One character of findNextBracket bookkeeping: a closing brace lowers
the open count, an opening brace raises it. -/
def braceStep (c : Char) (nleft : Int) : Int :=
  if c = '\x7d' then nleft - 1 else if c = '\x7b' then nleft + 1 else nleft

/-- The scanning loop of findNextBracket: walk the remaining characters,
tracking the running index and the open-brace count. -/
def findNextBracketAux : List Char → ℕ → Int → Int
  | [], _, _ => -1
  | c :: rest, ind, nleft =>
    if braceStep c nleft = 0 then (ind : Int)
    else findNextBracketAux rest (ind + 1) (braceStep c nleft)

/-- findNextBracket(s, ind): index of the brace closing the group that is
already one level open at ind, found by brace-depth counting; -1 if the
braces never balance. -/
def findNextBracket (s : List Char) (ind : ℕ) : Int :=
  findNextBracketAux (s.drop ind) ind 1

/-- The field loop of bibtex2dic.  The fuel argument bounds the number of
iterations; the scan position p strictly increases each iteration, so fuel
length + 2 always suffices (proved below), and none is never returned from
the top-level entry point. -/
def bibtexLoop (t : List Char) : ℕ → Dict → Int → Option Dict
  | 0, res, p => if p < (t.length : Int) then none else some res
  | fuel + 1, res, p =>
    if p < (t.length : Int) then
      -- oldP = p + 2 (key start), p1 = position of the next "={",
      -- oldP2 = p1 + 2 (value start), p2 = matching closing brace
      if pyFind t ['=', '\x7b'] p = -1 then some res
      else if findNextBracket t (pyFind t ['=', '\x7b'] p + 2).toNat = -1 then some res
      else
        bibtexLoop t fuel
          (dset res (String.mk (pyStrip (pySlice t (p + 2) (pyFind t ['=', '\x7b'] p))))
            (String.mk (pySlice t (pyFind t ['=', '\x7b'] p + 2)
              (findNextBracket t (pyFind t ['=', '\x7b'] p + 2).toNat))))
          (findNextBracket t (pyFind t ['=', '\x7b'] p + 2).toNat)
    else some res

/-- bibtex2dic(t): the header handling before the loop, then the field loop.
none can only arise from fuel exhaustion, which never happens. -/
def bibtex2dicO (s : String) : Option Dict :=
  let t := s.data
  let p := pyFind t ['\x7b'] 0
  let res := dset [] "type" (String.mk (pySlice t 1 p))
  let oldP := p
  let p1 := pyFind t [','] p
  let res := dset res "bibtexkey" (String.mk (pySlice t (oldP + 1) p1))
  bibtexLoop t (t.length + 2) res p1

/-- The total parser (the none branch is proved unreachable). -/
def bibtex2dic (s : String) : Dict :=
  match bibtex2dicO s with
  | some d => d
  | none => []

/-! ## BackoffGuard: detect_captcha -/

/-- The page signals detect_captcha inspects.  Each field abstracts one of
the six tests of the source: the two findFirstElement captcha queries, the
two block tests against url and page text, the repeating forbidden pattern,
and the unconfirmed suspicious phrase. -/
structure Page where
  urlBlockHint : Bool          -- the block marker substring occurs in the url
  txtAutomatedQueries : Bool   -- "...may be sending automated queries" in the page text
  elemCaptchaNamed : Bool      -- findFirstElement on the named captcha element is non-null
  txtForbiddenPattern : Bool   -- "/+/+/+/+/+" occurs in the page text
  txtNotARobot : Bool          -- "not a robot" occurs in the page text
  elemCaptchaId : Bool         -- findFirstElement on an id containing captcha is non-null
deriving DecidableEq

/-- The five outcomes of a page classification. -/
inductive Classification where
  | Clean | Captcha | Block | Forbidden | FalseAlarm
deriving DecidableEq

/-- Session state read by detect_captcha: the running attempt counter, the
two configured base timeouts (in the minutes unit the timer start converts
with a factor 60*1000), and the politeness-delay flag FORCE_DELAY. -/
structure GuardState where
  attempts : ℕ
  timeoutCaptcha : ℚ
  timeoutBlock : ℚ
  forceDelay : Bool

/-- Result of one detect_captcha call: which branch fired, the updated
attempt counter, and the delay the single-shot timer is armed with (in the
same minutes unit), none when no timer is started. -/
structure GuardResult where
  cls : Classification
  attempts : ℕ
  timerMinutes : Option ℚ
deriving DecidableEq

/-- detect_captcha(page).  jc and jb stand for the values sampled by
normalvariate(0, 2) and normalvariate(0, 10); they are added to the extra
delay only when FORCE_DELAY is set, in the captcha and block branches
respectively. -/
def detect_captcha (g : GuardState) (pg : Page) (jc jb : ℚ) : GuardResult :=
  if pg.urlBlockHint || pg.txtAutomatedQueries || pg.elemCaptchaNamed ||
     pg.txtForbiddenPattern || pg.txtNotARobot || pg.elemCaptchaId then
    let extra_delay : ℚ := (g.attempts : ℚ) * 30
    if pg.elemCaptchaNamed || pg.elemCaptchaId then
      let extra := if g.forceDelay then extra_delay + jc else extra_delay
      ⟨.Captcha, g.attempts + 1, some (g.timeoutCaptcha + extra)⟩
    else if pg.urlBlockHint || pg.txtAutomatedQueries then
      let extra := if g.forceDelay then extra_delay + jb else extra_delay
      ⟨.Block, g.attempts + 1, some (g.timeoutBlock + extra)⟩
    else if pg.txtForbiddenPattern then
      ⟨.Forbidden, g.attempts + 1, some 1⟩
    else
      ⟨.FalseAlarm, 0, none⟩
  else
    ⟨.Clean, 0, none⟩

/-- timer.start(delay * 60 * 1000): milliseconds the timer is armed with. -/
def scheduledMs (d : Option ℚ) : Option ℚ :=
  d.map (fun x => x * 60 * 1000)

/-! ## CitationStore: publications, citation edges, save_publication -/

/-- An incoming bibliographic record (the fields relevant to dedup). -/
structure PubRecord where
  bibtexkey : String
  title : String
  author : String
deriving DecidableEq

/-- A persisted row of the Publications table. -/
structure PubRow where
  bibtexkey : String
  title : String
  author : String
  pubid : String
deriving DecidableEq

/-- The persisted store: the Publications table (primary key
(BibtexKey, Title)) and the CitationRelationship table (primary key
(Citation_ID, Publication_ID)). -/
structure Store where
  pubs : List PubRow
  edges : List (String × String)
deriving DecidableEq

/-- Field preparation applied by save_publication before lookup/insertion. -/
def escRec (p : PubRecord) : PubRecord :=
  ⟨pyEscape p.bibtexkey, pyEscape p.title, pyEscape p.author⟩

/-- get_existing_pub_id: three lookups in order, (bibtexkey, title) exact,
then (bibtexkey, title with python-collapsed apostrophes), then
(bibtexkey, author); the empty string signals no match.  Every probe value
is embedded in a double-quoted SQL literal, so the value actually compared
against the stored row is sqlDouble of the argument. -/
def get_existing_pub_id (st : Store) (bib title author : String) : String :=
  match st.pubs.find? (fun r => r.bibtexkey == sqlDouble bib &&
      r.title == sqlDouble title) with
  | some r => r.pubid
  | none =>
    match st.pubs.find? (fun r => r.bibtexkey == sqlDouble bib &&
        r.title == sqlDouble (unquoteTitle title)) with
    | some r => r.pubid
    | none =>
      match st.pubs.find? (fun r => r.bibtexkey == sqlDouble bib &&
          r.author == sqlDouble author) with
      | some r => r.pubid
      | none => ""

/-- Python '%010d' % n. -/
def pad10 (n : ℕ) : String :=
  let s := toString n
  String.mk (List.replicate (10 - s.length) '0') ++ s

/-- Outcome of one save_publication call: the store and record counter after
the commit (or rollback), the boolean the function returns, and the pubid it
resolved or allocated. -/
structure SaveResult where
  store : Store
  total_records : ℕ
  ok : Bool
  pubid : String
deriving DecidableEq

/-- The row the publications INSERT stores: its single-quoted literals
collapse doubled apostrophes in every field. -/
def storedRow (row : PubRow) : PubRow :=
  ⟨sqlSingle row.bibtexkey, sqlSingle row.title, sqlSingle row.author, sqlSingle row.pubid⟩

/-- The try-block of save_publication for a fresh record (new_pub): insert
the new publication row (through single-quoted literals, so the stored
values are sqlSingle of the dict values) and, at current_level > 0, the
citation edge (through double-quoted literals, so the stored key is
sqlDouble of pubid and parent); a primary-key violation on either insert
raises sqlite3.Error, is caught, and rolls the whole record back (False);
otherwise the commit publishes both writes and total_records advances. -/
def saveNew (st : Store) (tr lvl : ℕ) (par : String) (row : PubRow) : SaveResult :=
  if st.pubs.any (fun r => r.bibtexkey == (storedRow row).bibtexkey &&
      r.title == (storedRow row).title) then
    ⟨st, tr, false, row.pubid⟩
  else if 0 < lvl then
    if st.edges.any (fun e => e == (sqlDouble row.pubid, sqlDouble par)) then
      ⟨st, tr, false, row.pubid⟩
    else
      ⟨⟨st.pubs ++ [storedRow row], st.edges ++ [(sqlDouble row.pubid, sqlDouble par)]⟩,
        tr + 1, true, row.pubid⟩
  else ⟨⟨st.pubs ++ [storedRow row], st.edges⟩, tr + 1, true, row.pubid⟩

/-- The try-block of save_publication for an already-known record: only the
citation edge is inserted (through double-quoted literals), and only at
current_level > 0; a duplicate edge violates the primary key and rolls
back (False). -/
def saveExisting (st : Store) (tr lvl : ℕ) (par pubid : String) : SaveResult :=
  if 0 < lvl then
    if st.edges.any (fun e => e == (sqlDouble pubid, sqlDouble par)) then
      ⟨st, tr, false, pubid⟩
    else ⟨⟨st.pubs, st.edges ++ [(sqlDouble pubid, sqlDouble par)]⟩, tr, true, pubid⟩
  else ⟨st, tr, true, pubid⟩

/-- save_publication(pub): field preparation, dedup lookup, pubid
allocation for a fresh record (bibtexkey + underscore + zero-padded
total_records), then the per-record transaction. -/
def save_publication (st : Store) (total_records current_level : ℕ)
    (parent_bibtex : String) (pub0 : PubRecord) : SaveResult :=
  let pub := escRec pub0
  let pubid0 := get_existing_pub_id st pub.bibtexkey pub.title pub.author
  if pubid0 = "" then
    saveNew st total_records current_level parent_bibtex
      ⟨pub.bibtexkey, pub.title, pub.author, pub.bibtexkey ++ "_" ++ pad10 total_records⟩
  else
    saveExisting st total_records current_level parent_bibtex pubid0

/-- dump_papers_to_db: write the pending records one save_publication call
at a time; a failing record is logged and skipped, the loop continues (the
progress-header write it ends with lives in the Crawl fields below). -/
def dump_papers_to_db (st : Store) (total_records current_level : ℕ)
    (parent_bibtex : String) (batch : List PubRecord) : Store × ℕ :=
  batch.foldl
    (fun acc d =>
      let r := save_publication acc.1 acc.2 current_level parent_bibtex d
      (r.store, r.total_records))
    (st, total_records)

/-! ## CrawlStateMachine: progress cursor, flush, blocked handler -/

/-- The in-memory crawl session: the store, the persisted progress header
fields, and the pending batch. -/
structure Crawl where
  store : Store
  total_records : ℕ
  ppl : ℕ
  maxpl : ℕ
  use_percent : Bool
  max_level : ℕ
  current_level : ℕ
  current_row : ℕ
  progress : ℕ
  level_limit : ℕ
  scrape_done : Bool
  to_be_dumped : List PubRecord
  parent_bibtex : String
deriving DecidableEq

/-- The max_progress computation shared by dump_papers and mrcd: percent
mode takes int((citedby * ppl) / 100) clamped up to 1 for a parent with at
least one citation; fixed mode takes maxpl. -/
def max_progress_calc (citedby ppl maxpl : ℕ) (use_percent : Bool) : ℕ :=
  if use_percent then
    let mp := citedby * ppl / 100
    if mp = 0 ∧ 0 < citedby then 1 else mp
  else maxpl

/-- The spec's own wording of the percent-mode cap, kept separate so the
source computation can be compared against it: keep = floor(totalCitedBy *
ppl / 100), clamped to 1 when totalCitedBy > 0 and keep = 0. -/
def capSpecPercent (totalCitedBy ppl : ℕ) : ℕ :=
  let keep := totalCitedBy * ppl / 100
  if totalCitedBy > 0 ∧ keep = 0 then 1 else keep

/-- The flush branch at the end of dump_papers, taken once all articles for
the current parent are retrieved: dump the batch, clear it, reset progress,
advance the row; on completing the level recompute level_limit from the
store publication count and advance the level; finally recompute
scrape_done. -/
def dump_papers_flush (m : Crawl) : Crawl :=
  let r := dump_papers_to_db m.store m.total_records m.current_level m.parent_bibtex m.to_be_dumped
  let m1 := { m with store := r.1, total_records := r.2, to_be_dumped := [],
                     progress := 0, current_row := m.current_row + 1 }
  let m2 :=
    if m1.current_row = m1.level_limit then
      { m1 with level_limit := m1.store.pubs.length, current_level := m1.current_level + 1 }
    else m1
  { m2 with scrape_done := m2.current_level == m2.max_level }

/-- create_db after the tables are rebuilt: the seed publications are saved
at level 0 (no edges), then the header is written with current_level 1,
current_row 0, progress 0, scrape_done 0, level_limit = number of seeds and
max_level = the entered bound + 1. -/
def create_db_init (ppl maxpl maxLevelInput : ℕ) (use_percent : Bool)
    (seeds : List PubRecord) : Crawl :=
  let r := dump_papers_to_db ⟨[], []⟩ 0 0 "" seeds
  { store := r.1, total_records := r.2, ppl := ppl, maxpl := maxpl,
    use_percent := use_percent, max_level := maxLevelInput + 1,
    current_level := 1, current_row := 0, progress := 0,
    level_limit := seeds.length, scrape_done := false,
    to_be_dumped := [], parent_bibtex := "" }

/-- The invalid_request branch of loadFinished: when detect_captcha armed
the backoff timer the handler stops issuing fetches and, if a pending batch
exists, dumps it to the store and clears it; the progress cursor fields are
left untouched. -/
def loadFinished_blocked (m : Crawl) : Crawl :=
  if m.to_be_dumped.isEmpty then m
  else
    let r := dump_papers_to_db m.store m.total_records m.current_level m.parent_bibtex m.to_be_dumped
    { m with store := r.1, total_records := r.2, to_be_dumped := [] }

/-- The url do_continue_data_collection loads; timer_wakeup resumes by
calling do_continue_data_collection, so this is the request the single
deferred resumption re-issues, parameterised by the progress offset. -/
def do_continue_url (citeid : String) (progress : ℕ) : String :=
  "http://scholar.google.com/scholar?cites=" ++ citeid ++
    "&as_sdt=2005&sciodt=0,5&num=100&hl=en&start=" ++ toString progress

/-! ## Concrete instances used by witnesses and counterexamples -/

/-- A page where only the confirmed captcha element is present. -/
def pgCaptchaOnly : Page := ⟨false, false, true, false, false, false⟩

/-- A page where only the block phrasing matches. -/
def pgBlockOnly : Page := ⟨true, false, false, false, false, false⟩

/-- A page where only the repeating forbidden pattern is present. -/
def pgForbiddenOnly : Page := ⟨false, false, false, true, false, false⟩

/-- A page with only the unconfirmed suspicious phrase. -/
def pgRobotOnly : Page := ⟨false, false, false, false, true, false⟩

/-- A page with none of the signals. -/
def pgClean : Page := ⟨false, false, false, false, false, false⟩

/-- Guard state with the default base timeouts and no attempts yet. -/
def g0 : GuardState := ⟨0, 300, 360, false⟩

/-- Same with one failed attempt recorded. -/
def g1 : GuardState := ⟨1, 300, 360, false⟩

/-- Sample records. -/
def recA : PubRecord := ⟨"keya", "Title A", "Author A"⟩

def recB : PubRecord := ⟨"keyb", "Title B", "Author B"⟩

def seedRec : PubRecord := ⟨"seed", "Seed Title", "Seed Author"⟩

/-- A record whose title contains a double quote and whose author contains
an apostrophe: the SQL quoting asymmetry makes its dedup lookups miss. -/
def recQuoted : PubRecord := ⟨"k", "a\"b", "c'd"⟩

def emptyStore : Store := ⟨[], []⟩

/-- A mid-crawl state: one seed in the store, level 1 of 4, first parent
row, a pending batch that resolves to the already-stored seed (so the level
completes without adding a publication row). -/
def crawlC9 : Crawl :=
  { store := (dump_papers_to_db emptyStore 0 0 "" [seedRec]).1,
    total_records := 1, ppl := 3, maxpl := 3, use_percent := true,
    max_level := 4, current_level := 1, current_row := 0, progress := 7,
    level_limit := 1, scrape_done := false,
    to_be_dumped := [seedRec], parent_bibtex := "seed_0000000000" }

/-- A mid-crawl state with a non-empty pending batch, used for the blocked
completion handler. -/
def crawlC8 : Crawl :=
  { store := emptyStore,
    total_records := 0, ppl := 3, maxpl := 3, use_percent := true,
    max_level := 4, current_level := 1, current_row := 2, progress := 5,
    level_limit := 9, scrape_done := false,
    to_be_dumped := [recA, recB], parent_bibtex := "parentid" }

/-! ## Lemmas: scan positions only move forward -/

theorem findSubAux_ge (sub : List Char) :
    ∀ (l : List Char) (i r : ℕ), findSubAux sub l i = some r → i ≤ r := by
  intro l
  induction l with
  | nil =>
    intro i r h
    unfold findSubAux at h
    split at h
    · exact le_of_eq (Option.some.inj h)
    · simp at h
  | cons c rest ih =>
    intro i r h
    unfold findSubAux at h
    split at h
    · exact le_of_eq (Option.some.inj h)
    · exact le_trans (Nat.le_succ i) (ih (i + 1) r h)

theorem pyStart_ge (s : List Char) (start : Int) :
    0 ≤ pyStart s start ∧ start ≤ pyStart s start := by
  unfold pyStart
  split <;> constructor <;> omega

theorem pyFind_ge_neg_one (s sub : List Char) (start : Int) : -1 ≤ pyFind s sub start := by
  unfold pyFind
  split
  · split <;> omega
  · omega

theorem pyFind_ge (s sub : List Char) (start : Int) (h : pyFind s sub start ≠ -1) :
    start ≤ pyFind s sub start ∧ 0 ≤ pyFind s sub start := by
  have hst := pyStart_ge s start
  unfold pyFind at h ⊢
  by_cases hle : pyStart s start ≤ (s.length : Int)
  · rw [if_pos hle] at h ⊢
    cases hfa : findSubAux sub (s.drop (pyStart s start).toNat) (pyStart s start).toNat with
    | none => simp only [hfa] at h; simp at h
    | some r =>
      simp only [hfa] at h ⊢
      have := findSubAux_ge sub _ _ _ hfa
      constructor <;> omega
  · rw [if_neg hle] at h
    simp at h

theorem findNextBracketAux_ge :
    ∀ (l : List Char) (ind : ℕ) (n : Int), findNextBracketAux l ind n ≠ -1 →
      (ind : Int) ≤ findNextBracketAux l ind n := by
  intro l
  induction l with
  | nil => intro ind n h; simp [findNextBracketAux] at h
  | cons c rest ih =>
    intro ind n h
    unfold findNextBracketAux at h ⊢
    by_cases hz : braceStep c n = 0
    · rw [if_pos hz] at h ⊢
    · rw [if_neg hz] at h ⊢
      exact le_trans (by omega) (ih (ind + 1) _ h)

theorem findNextBracket_ge (s : List Char) (ind : ℕ) (h : findNextBracket s ind ≠ -1) :
    (ind : Int) ≤ findNextBracket s ind :=
  findNextBracketAux_ge (s.drop ind) ind 1 h

/-! ## Lemmas: dictionary assignment -/

theorem find?_map_replace (d : Dict) (k v : String)
    (h : d.any (fun e => e.1 = k) = true) :
    (d.map (fun e => if e.1 = k then (k, v) else e)).find? (fun e => e.1 = k) = some (k, v) := by
  induction d with
  | nil => simp at h
  | cons e rest ih =>
    by_cases he : e.1 = k
    · simp only [List.map_cons, if_pos he]
      exact List.find?_cons_of_pos _ (by simp)
    · simp only [List.map_cons, if_neg he]
      rw [List.find?_cons_of_neg _ (by simp [he])]
      exact ih (by simpa [he] using h)

theorem find?_append_new (d : Dict) (k v : String)
    (h : d.any (fun e => e.1 = k) = false) :
    (d ++ [(k, v)]).find? (fun e => e.1 = k) = some (k, v) := by
  rw [List.find?_append]
  have hn : d.find? (fun e => e.1 = k) = none := by
    rw [List.find?_eq_none]
    intro x hx hpx
    have hany : d.any (fun e => e.1 = k) = true := by
      apply List.any_eq_true.mpr
      exact ⟨x, hx, hpx⟩
    rw [h] at hany
    simp at hany
  rw [hn]
  simp

theorem dget_dset_self (d : Dict) (k v : String) : dget (dset d k v) k = some v := by
  unfold dset dget
  cases h : d.any (fun e => e.1 = k) with
  | true => rw [if_pos rfl, find?_map_replace d k v h]; rfl
  | false => rw [if_neg (by simp), find?_append_new d k v h]; rfl

theorem dmem_dset_self (d : Dict) (k v : String) : dmem (dset d k v) k = true := by
  unfold dmem
  rw [dget_dset_self]
  rfl

theorem dget_map_replace_ne (d : Dict) (k k' v : String) (hne : k' ≠ k) :
    (d.map (fun e => if e.1 = k then (k, v) else e)).find? (fun e => e.1 = k') =
      d.find? (fun e => e.1 = k') := by
  induction d with
  | nil => simp
  | cons e rest ih =>
    by_cases he : e.1 = k
    · simp only [List.map_cons, if_pos he]
      rw [List.find?_cons_of_neg _ (by simp [Ne.symm hne]),
          List.find?_cons_of_neg _ (by simp [he, Ne.symm hne]), ih]
    · simp only [List.map_cons, if_neg he]
      by_cases he' : e.1 = k'
      · rw [List.find?_cons_of_pos _ (by simp [he']), List.find?_cons_of_pos _ (by simp [he'])]
      · rw [List.find?_cons_of_neg _ (by simp [he']), List.find?_cons_of_neg _ (by simp [he']), ih]

theorem dmem_dset (d : Dict) (k k' v : String) (h : dmem d k' = true) :
    dmem (dset d k v) k' = true := by
  by_cases hk : k' = k
  · subst hk; exact dmem_dset_self d k' v
  · unfold dmem dget at h ⊢
    unfold dset
    cases ha : d.any (fun e => e.1 = k) with
    | true =>
      rw [if_pos rfl, dget_map_replace_ne d k k' v hk]
      exact h
    | false =>
      rw [if_neg (by simp), List.find?_append]
      cases hf : d.find? (fun e => e.1 = k') with
      | none => rw [hf] at h; simp at h
      | some e => simp [hf]

/-! ## Lemmas: the bibtex field loop always terminates with enough fuel -/

theorem bibtexLoop_total (t : List Char) :
    ∀ (fuel : ℕ) (res : Dict) (p : Int), (t.length : Int) + 1 ≤ p + fuel →
      ∃ d, bibtexLoop t fuel res p = some d ∧ ∀ k, dmem res k = true → dmem d k = true := by
  intro fuel
  induction fuel with
  | zero =>
    intro res p hp
    refine ⟨res, ?_, fun k hk => hk⟩
    unfold bibtexLoop
    rw [if_neg (by omega)]
  | succ f ih =>
    intro res p hp
    by_cases hlt : p < (t.length : Int)
    · by_cases h1 : pyFind t ['=', '\x7b'] p = -1
      · refine ⟨res, ?_, fun k hk => hk⟩
        unfold bibtexLoop
        rw [if_pos hlt, if_pos h1]
      · have hge1 := pyFind_ge t ['=', '\x7b'] p h1
        by_cases h2 : findNextBracket t (pyFind t ['=', '\x7b'] p + 2).toNat = -1
        · refine ⟨res, ?_, fun k hk => hk⟩
          unfold bibtexLoop
          rw [if_pos hlt, if_neg h1, if_pos h2]
        · have hge2 := findNextBracket_ge t (pyFind t ['=', '\x7b'] p + 2).toNat h2
          have hbound : (t.length : Int) + 1 ≤
              findNextBracket t (pyFind t ['=', '\x7b'] p + 2).toNat + f := by omega
          obtain ⟨d, hd, hkeys⟩ := ih
            (dset res
              (String.mk (pyStrip (pySlice t (p + 2) (pyFind t ['=', '\x7b'] p))))
              (String.mk (pySlice t (pyFind t ['=', '\x7b'] p + 2)
                (findNextBracket t (pyFind t ['=', '\x7b'] p + 2).toNat))))
            (findNextBracket t (pyFind t ['=', '\x7b'] p + 2).toNat) hbound
          refine ⟨d, ?_, fun k hk => hkeys k (dmem_dset _ _ _ _ hk)⟩
          unfold bibtexLoop
          rw [if_pos hlt, if_neg h1, if_neg h2]
          exact hd
    · refine ⟨res, ?_, fun k hk => hk⟩
      unfold bibtexLoop
      rw [if_neg hlt]

/-! ## Lemmas: the backoff guard branches -/

theorem detect_captcha_total (g : GuardState) (pg : Page) (jc jb : ℚ) :
    detect_captcha g pg jc jb =
        ⟨.Captcha, g.attempts + 1, some (g.timeoutCaptcha +
          (if g.forceDelay then (g.attempts : ℚ) * 30 + jc else (g.attempts : ℚ) * 30))⟩ ∨
      detect_captcha g pg jc jb =
        ⟨.Block, g.attempts + 1, some (g.timeoutBlock +
          (if g.forceDelay then (g.attempts : ℚ) * 30 + jb else (g.attempts : ℚ) * 30))⟩ ∨
      detect_captcha g pg jc jb = ⟨.Forbidden, g.attempts + 1, some 1⟩ ∨
      detect_captcha g pg jc jb = ⟨.FalseAlarm, 0, none⟩ ∨
      detect_captcha g pg jc jb = ⟨.Clean, 0, none⟩ := by
  simp only [detect_captcha]
  split
  · split
    · exact Or.inl rfl
    · split
      · exact Or.inr (Or.inl rfl)
      · split
        · exact Or.inr (Or.inr (Or.inl rfl))
        · exact Or.inr (Or.inr (Or.inr (Or.inl rfl)))
  · exact Or.inr (Or.inr (Or.inr (Or.inr rfl)))

theorem detect_eq_captcha (g : GuardState) (pg : Page) (jc jb : ℚ)
    (h : (pg.elemCaptchaNamed || pg.elemCaptchaId) = true) :
    detect_captcha g pg jc jb =
      ⟨.Captcha, g.attempts + 1, some (g.timeoutCaptcha +
        (if g.forceDelay then (g.attempts : ℚ) * 30 + jc else (g.attempts : ℚ) * 30))⟩ := by
  have houter : (pg.urlBlockHint || pg.txtAutomatedQueries || pg.elemCaptchaNamed ||
      pg.txtForbiddenPattern || pg.txtNotARobot || pg.elemCaptchaId) = true := by
    rcases Bool.or_eq_true_iff.mp h with h' | h' <;> simp [h']
  simp only [detect_captcha]
  rw [if_pos houter, if_pos h]

theorem detect_eq_block (g : GuardState) (pg : Page) (jc jb : ℚ)
    (hc : (pg.elemCaptchaNamed || pg.elemCaptchaId) = false)
    (hb : (pg.urlBlockHint || pg.txtAutomatedQueries) = true) :
    detect_captcha g pg jc jb =
      ⟨.Block, g.attempts + 1, some (g.timeoutBlock +
        (if g.forceDelay then (g.attempts : ℚ) * 30 + jb else (g.attempts : ℚ) * 30))⟩ := by
  have houter : (pg.urlBlockHint || pg.txtAutomatedQueries || pg.elemCaptchaNamed ||
      pg.txtForbiddenPattern || pg.txtNotARobot || pg.elemCaptchaId) = true := by
    rcases Bool.or_eq_true_iff.mp hb with h' | h' <;> simp [h']
  simp only [detect_captcha]
  rw [if_pos houter, if_neg (by simp [hc]), if_pos hb]

theorem detect_eq_forbidden (g : GuardState) (pg : Page) (jc jb : ℚ)
    (hc : (pg.elemCaptchaNamed || pg.elemCaptchaId) = false)
    (hb : (pg.urlBlockHint || pg.txtAutomatedQueries) = false)
    (hf : pg.txtForbiddenPattern = true) :
    detect_captcha g pg jc jb = ⟨.Forbidden, g.attempts + 1, some 1⟩ := by
  have houter : (pg.urlBlockHint || pg.txtAutomatedQueries || pg.elemCaptchaNamed ||
      pg.txtForbiddenPattern || pg.txtNotARobot || pg.elemCaptchaId) = true := by
    simp [hf]
  simp only [detect_captcha]
  rw [if_pos houter, if_neg (by simp [hc]), if_neg (by simp [hb]), if_pos hf]

theorem detect_eq_falsealarm (g : GuardState) (pg : Page) (jc jb : ℚ)
    (hc : (pg.elemCaptchaNamed || pg.elemCaptchaId) = false)
    (hb : (pg.urlBlockHint || pg.txtAutomatedQueries) = false)
    (hf : pg.txtForbiddenPattern = false)
    (hr : pg.txtNotARobot = true) :
    detect_captcha g pg jc jb = ⟨.FalseAlarm, 0, none⟩ := by
  have houter : (pg.urlBlockHint || pg.txtAutomatedQueries || pg.elemCaptchaNamed ||
      pg.txtForbiddenPattern || pg.txtNotARobot || pg.elemCaptchaId) = true := by
    simp [hr]
  simp only [detect_captcha]
  rw [if_pos houter, if_neg (by simp [hc]), if_neg (by simp [hb]), if_neg (by simp [hf])]

theorem detect_eq_clean (g : GuardState) (pg : Page) (jc jb : ℚ)
    (h1 : pg.urlBlockHint = false) (h2 : pg.txtAutomatedQueries = false)
    (h3 : pg.elemCaptchaNamed = false) (h4 : pg.txtForbiddenPattern = false)
    (h5 : pg.txtNotARobot = false) (h6 : pg.elemCaptchaId = false) :
    detect_captcha g pg jc jb = ⟨.Clean, 0, none⟩ := by
  simp only [detect_captcha]
  rw [if_neg (by simp [h1, h2, h3, h4, h5, h6])]

/-! ## Lemmas: the store -/

theorem get_existing_none (st : Store) (bib t a : String)
    (h : ∀ r ∈ st.pubs, r.bibtexkey ≠ sqlDouble bib) :
    get_existing_pub_id st bib t a = "" := by
  unfold get_existing_pub_id
  have h1 : st.pubs.find? (fun r => r.bibtexkey == sqlDouble bib &&
      r.title == sqlDouble t) = none := by
    rw [List.find?_eq_none]
    intro r hr hpr
    simp only [Bool.and_eq_true, beq_iff_eq] at hpr
    exact h r hr hpr.1
  have h2 : st.pubs.find? (fun r => r.bibtexkey == sqlDouble bib &&
      r.title == sqlDouble (unquoteTitle t)) = none := by
    rw [List.find?_eq_none]
    intro r hr hpr
    simp only [Bool.and_eq_true, beq_iff_eq] at hpr
    exact h r hr hpr.1
  have h3 : st.pubs.find? (fun r => r.bibtexkey == sqlDouble bib &&
      r.author == sqlDouble a) = none := by
    rw [List.find?_eq_none]
    intro r hr hpr
    simp only [Bool.and_eq_true, beq_iff_eq] at hpr
    exact h r hr hpr.1
  simp only [h1, h2, h3]

theorem get_existing_appended (l : List PubRow) (es : List (String × String))
    (bib tl au : String) (row : PubRow) (h : ∀ r ∈ l, r.bibtexkey ≠ sqlDouble bib)
    (hb : row.bibtexkey = sqlDouble bib) (ht : row.title = sqlDouble tl) :
    get_existing_pub_id ⟨l ++ [row], es⟩ bib tl au = row.pubid := by
  unfold get_existing_pub_id
  have h1 : (l ++ [row]).find?
      (fun r => r.bibtexkey == sqlDouble bib && r.title == sqlDouble tl) = some row := by
    rw [List.find?_append]
    have hn : l.find? (fun r => r.bibtexkey == sqlDouble bib &&
        r.title == sqlDouble tl) = none := by
      rw [List.find?_eq_none]
      intro r hr hpr
      simp only [Bool.and_eq_true, beq_iff_eq] at hpr
      exact h r hr hpr.1
    rw [hn]
    simp [hb, ht]
  simp only [h1]

theorem saveNew_cases (st : Store) (tr lvl : ℕ) (par : String) (row : PubRow) :
    saveNew st tr lvl par row = ⟨st, tr, false, row.pubid⟩ ∨
      saveNew st tr lvl par row =
        ⟨⟨st.pubs ++ [storedRow row],
          st.edges ++ [(sqlDouble row.pubid, sqlDouble par)]⟩, tr + 1, true, row.pubid⟩ ∨
      saveNew st tr lvl par row =
        ⟨⟨st.pubs ++ [storedRow row], st.edges⟩, tr + 1, true, row.pubid⟩ := by
  unfold saveNew
  split
  · exact Or.inl rfl
  · split
    · split
      · exact Or.inl rfl
      · exact Or.inr (Or.inl rfl)
    · exact Or.inr (Or.inr rfl)

theorem saveExisting_cases (st : Store) (tr lvl : ℕ) (par pubid : String) :
    saveExisting st tr lvl par pubid = ⟨st, tr, false, pubid⟩ ∨
      saveExisting st tr lvl par pubid =
        ⟨⟨st.pubs, st.edges ++ [(sqlDouble pubid, sqlDouble par)]⟩, tr, true, pubid⟩ ∨
      saveExisting st tr lvl par pubid = ⟨st, tr, true, pubid⟩ := by
  unfold saveExisting
  split
  · split
    · exact Or.inl rfl
    · exact Or.inr (Or.inl rfl)
  · exact Or.inr (Or.inr rfl)

theorem save_fail_unchanged (st : Store) (tr lvl : ℕ) (par : String) (pub : PubRecord)
    (h : (save_publication st tr lvl par pub).ok = false) :
    (save_publication st tr lvl par pub).store = st ∧
      (save_publication st tr lvl par pub).total_records = tr := by
  simp only [save_publication] at h ⊢
  by_cases hc : get_existing_pub_id st (escRec pub).bibtexkey (escRec pub).title
      (escRec pub).author = ""
  · rw [if_pos hc] at h ⊢
    rcases saveNew_cases st tr lvl par
        ⟨(escRec pub).bibtexkey, (escRec pub).title, (escRec pub).author,
          (escRec pub).bibtexkey ++ "_" ++ pad10 tr⟩ with heq | heq | heq <;>
      rw [heq] at h ⊢
    · exact ⟨rfl, rfl⟩
    · simp at h
    · simp at h
  · rw [if_neg hc] at h ⊢
    rcases saveExisting_cases st tr lvl par (get_existing_pub_id st (escRec pub).bibtexkey
        (escRec pub).title (escRec pub).author) with heq | heq | heq <;>
      rw [heq] at h ⊢
    · exact ⟨rfl, rfl⟩
    · simp at h
    · simp at h

theorem save_pubs_le (st : Store) (tr lvl : ℕ) (par : String) (pub : PubRecord) :
    st.pubs.length ≤ (save_publication st tr lvl par pub).store.pubs.length := by
  simp only [save_publication]
  by_cases hc : get_existing_pub_id st (escRec pub).bibtexkey (escRec pub).title
      (escRec pub).author = ""
  · rw [if_pos hc]
    rcases saveNew_cases st tr lvl par
        ⟨(escRec pub).bibtexkey, (escRec pub).title, (escRec pub).author,
          (escRec pub).bibtexkey ++ "_" ++ pad10 tr⟩ with heq | heq | heq <;>
      rw [heq] <;> simp
  · rw [if_neg hc]
    rcases saveExisting_cases st tr lvl par (get_existing_pub_id st (escRec pub).bibtexkey
        (escRec pub).title (escRec pub).author) with heq | heq | heq <;>
      rw [heq] <;> simp

theorem dump_cons (st : Store) (tr lvl : ℕ) (par : String) (d : PubRecord)
    (rest : List PubRecord) :
    dump_papers_to_db st tr lvl par (d :: rest) =
      dump_papers_to_db (save_publication st tr lvl par d).store
        (save_publication st tr lvl par d).total_records lvl par rest := rfl

theorem dump_pubs_le (lvl : ℕ) (par : String) :
    ∀ (batch : List PubRecord) (st : Store) (tr : ℕ),
      st.pubs.length ≤ (dump_papers_to_db st tr lvl par batch).1.pubs.length := by
  intro batch
  induction batch with
  | nil => intro st tr; exact le_refl _
  | cons d rest ih =>
    intro st tr
    rw [dump_cons]
    exact le_trans (save_pubs_le st tr lvl par d) (ih _ _)

theorem saveNew_pubid (st : Store) (tr lvl : ℕ) (par : String) (row : PubRow) :
    (saveNew st tr lvl par row).pubid = row.pubid := by
  rcases saveNew_cases st tr lvl par row with heq | heq | heq <;> rw [heq]

theorem saveExisting_pubid (st : Store) (tr lvl : ℕ) (par pid : String) :
    (saveExisting st tr lvl par pid).pubid = pid := by
  rcases saveExisting_cases st tr lvl par pid with heq | heq | heq <;> rw [heq]

theorem saveExisting_store_pubs (st : Store) (tr lvl : ℕ) (par pid : String) :
    (saveExisting st tr lvl par pid).store.pubs = st.pubs := by
  rcases saveExisting_cases st tr lvl par pid with heq | heq | heq <;> rw [heq]

theorem saveNew_dup_edge (st : Store) (tr lvl : ℕ) (par : String) (row : PubRow)
    (hlvl : 0 < lvl) (hdup : (sqlDouble row.pubid, sqlDouble par) ∈ st.edges) :
    saveNew st tr lvl par row = ⟨st, tr, false, row.pubid⟩ := by
  have ha : (st.edges.any fun e => e == (sqlDouble row.pubid, sqlDouble par)) = true :=
    List.any_eq_true.mpr ⟨(sqlDouble row.pubid, sqlDouble par), hdup, by simp⟩
  unfold saveNew
  split
  · rfl
  · simp [hlvl, ha]

theorem saveExisting_dup_edge (st : Store) (tr lvl : ℕ) (par pid : String)
    (hlvl : 0 < lvl) (hdup : (sqlDouble pid, sqlDouble par) ∈ st.edges) :
    saveExisting st tr lvl par pid = ⟨st, tr, false, pid⟩ := by
  have ha : (st.edges.any fun e => e == (sqlDouble pid, sqlDouble par)) = true :=
    List.any_eq_true.mpr ⟨(sqlDouble pid, sqlDouble par), hdup, by simp⟩
  unfold saveExisting
  simp [hlvl, ha]

theorem save_fresh (st : Store) (tr lvl : ℕ) (par : String) (pub : PubRecord)
    (hnoP : ∀ r ∈ st.pubs, r.bibtexkey ≠ sqlDouble (escRec pub).bibtexkey)
    (hnoS : ∀ r ∈ st.pubs, r.bibtexkey ≠ sqlSingle (escRec pub).bibtexkey)
    (hnoedge : (sqlDouble ((escRec pub).bibtexkey ++ "_" ++ pad10 tr), sqlDouble par) ∉
      st.edges) :
    save_publication st tr lvl par pub =
      ⟨⟨st.pubs ++ [storedRow ⟨(escRec pub).bibtexkey, (escRec pub).title,
            (escRec pub).author, (escRec pub).bibtexkey ++ "_" ++ pad10 tr⟩],
          if 0 < lvl then
            st.edges ++ [(sqlDouble ((escRec pub).bibtexkey ++ "_" ++ pad10 tr),
              sqlDouble par)]
          else st.edges⟩,
        tr + 1, true, (escRec pub).bibtexkey ++ "_" ++ pad10 tr⟩ := by
  have h0 := get_existing_none st (escRec pub).bibtexkey (escRec pub).title
    (escRec pub).author hnoP
  have hpk : (st.pubs.any fun r => r.bibtexkey == sqlSingle (escRec pub).bibtexkey &&
      r.title == sqlSingle (escRec pub).title) = false := by
    rw [List.any_eq_false]
    intro x hx hx'
    simp only [Bool.and_eq_true, beq_iff_eq] at hx'
    exact hnoS x hx hx'.1
  have hedge : (st.edges.any fun e =>
      e == (sqlDouble ((escRec pub).bibtexkey ++ "_" ++ pad10 tr), sqlDouble par)) =
      false := by
    rw [List.any_eq_false]
    intro e he he'
    rw [beq_iff_eq] at he'
    exact hnoedge (he' ▸ he)
  simp only [save_publication]
  rw [if_pos h0]
  unfold saveNew storedRow
  rw [if_neg (by simp [hpk])]
  by_cases hlvl : 0 < lvl
  · simp [hlvl, hedge]
  · simp [hlvl]

theorem save_existing_found (st : Store) (tr lvl : ℕ) (par : String) (pub : PubRecord)
    (pid : String)
    (hget : get_existing_pub_id st (escRec pub).bibtexkey (escRec pub).title
      (escRec pub).author = pid)
    (hpid : pid ≠ "") :
    save_publication st tr lvl par pub = saveExisting st tr lvl par pid := by
  simp only [save_publication]
  rw [hget, if_neg hpid]

/-! ## Lemmas: quote-free strings are fixed points of escaping and SQL decoding -/

theorem unescQuotes_id : ∀ (l : List Char), (∀ c ∈ l, c ≠ '\'') → unescQuotes l = l
  | [], _ => rfl
  | [_], _ => rfl
  | c :: c' :: rest, h => by
    have hc : c ≠ '\'' := h c (by simp)
    show (if c = '\'' ∧ c' = '\'' then '\'' :: unescQuotes rest
      else c :: unescQuotes (c' :: rest)) = c :: c' :: rest
    rw [if_neg (fun hand => hc hand.1)]
    rw [unescQuotes_id (c' :: rest) (fun x hx => h x (List.mem_cons_of_mem c hx))]

theorem dqUnescape_id : ∀ (l : List Char), (∀ c ∈ l, c ≠ '"') → dqUnescape l = l
  | [], _ => rfl
  | [_], _ => rfl
  | c :: c' :: rest, h => by
    have hc : c ≠ '"' := h c (by simp)
    show (if c = '"' ∧ c' = '"' then '"' :: dqUnescape rest
      else c :: dqUnescape (c' :: rest)) = c :: c' :: rest
    rw [if_neg (fun hand => hc hand.1)]
    rw [dqUnescape_id (c' :: rest) (fun x hx => h x (List.mem_cons_of_mem c hx))]

theorem pyReplaceChar_id (c : Char) (rep : List Char) :
    ∀ (l : List Char), (∀ x ∈ l, x ≠ c) → pyReplaceChar c rep l = l := by
  intro l
  induction l with
  | nil => intro _; rfl
  | cons x rest ih =>
    intro h
    unfold pyReplaceChar at ih ⊢
    simp only [List.map_cons, List.flatten_cons]
    rw [if_neg (h x (by simp)), ih (fun y hy => h y (by simp [hy]))]
    rfl

theorem pyEscape_id (s : String) (h : ∀ c ∈ s.data, c ≠ '\'' ∧ c ≠ '"') :
    pyEscape s = s := by
  unfold pyEscape
  rw [pyReplaceChar_id '\'' _ s.data (fun x hx => (h x hx).1)]
  rw [pyReplaceChar_id '"' _ s.data (fun x hx => (h x hx).2)]

theorem sqlSingle_id (s : String) (h : ∀ c ∈ s.data, c ≠ '\'') : sqlSingle s = s := by
  unfold sqlSingle
  rw [unescQuotes_id s.data h]

theorem sqlDouble_id (s : String) (h : ∀ c ∈ s.data, c ≠ '"') : sqlDouble s = s := by
  unfold sqlDouble
  rw [dqUnescape_id s.data h]

theorem quoteFree_chars (s : String) (h : quoteFree s = true) :
    ∀ c ∈ s.data, c ≠ '\'' ∧ c ≠ '"' := by
  intro c hc
  unfold quoteFree at h
  rw [List.all_eq_true] at h
  have hx := h c hc
  simp only [Bool.and_eq_true, bne_iff_ne, ne_eq] at hx
  exact hx

theorem escRec_id (pub : PubRecord) (h1 : quoteFree pub.bibtexkey = true)
    (h2 : quoteFree pub.title = true) (h3 : quoteFree pub.author = true) :
    escRec pub = pub := by
  unfold escRec
  rw [pyEscape_id _ (quoteFree_chars _ h1), pyEscape_id _ (quoteFree_chars _ h2),
    pyEscape_id _ (quoteFree_chars _ h3)]

theorem digitChar_ne_quote (m : ℕ) (hm : m < 10) :
    Nat.digitChar m ≠ '\'' ∧ Nat.digitChar m ≠ '"' := by
  interval_cases m <;> exact ⟨by decide, by decide⟩

theorem toDigitsCore_ne_quote :
    ∀ (fuel n : ℕ) (ds : List Char), (∀ c ∈ ds, c ≠ '\'' ∧ c ≠ '"') →
      ∀ c ∈ Nat.toDigitsCore 10 fuel n ds, c ≠ '\'' ∧ c ≠ '"' := by
  intro fuel
  induction fuel with
  | zero =>
    intro n ds hds c hc
    simp only [Nat.toDigitsCore] at hc
    exact hds c hc
  | succ f ih =>
    intro n ds hds c hc
    simp only [Nat.toDigitsCore] at hc
    have hext : ∀ x ∈ Nat.digitChar (n % 10) :: ds, x ≠ '\'' ∧ x ≠ '"' := by
      intro x hx
      rcases List.mem_cons.mp hx with h | h
      · subst h; exact digitChar_ne_quote _ (Nat.mod_lt _ (by norm_num))
      · exact hds x h
    split at hc
    · exact hext c hc
    · exact ih (n / 10) (Nat.digitChar (n % 10) :: ds) hext c hc

theorem repr_ne_quote (n : ℕ) : ∀ c ∈ (Nat.repr n).data, c ≠ '\'' ∧ c ≠ '"' := by
  intro c hc
  have hdata : (Nat.repr n).data = Nat.toDigitsCore 10 (n + 1) n [] := rfl
  rw [hdata] at hc
  exact toDigitsCore_ne_quote (n + 1) n [] (by simp) c hc

theorem pad10_ne_quote (n : ℕ) : ∀ c ∈ (pad10 n).data, c ≠ '\'' ∧ c ≠ '"' := by
  intro c hc
  unfold pad10 at hc
  rw [String.data_append] at hc
  rcases List.mem_append.mp hc with h | h
  · have hz : c = '0' := (List.eq_of_mem_replicate h)
    subst hz
    decide
  · exact repr_ne_quote n c h

theorem pubid_ne_quote (bib : String) (tr : ℕ)
    (h : ∀ c ∈ bib.data, c ≠ '\'' ∧ c ≠ '"') :
    ∀ c ∈ (bib ++ "_" ++ pad10 tr).data, c ≠ '\'' ∧ c ≠ '"' := by
  intro c hc
  rw [String.data_append, String.data_append] at hc
  rcases List.mem_append.mp hc with h1 | h1
  · rcases List.mem_append.mp h1 with h2 | h2
    · exact h c h2
    · have hu : ("_" : String).data = ['_'] := rfl
      rw [hu] at h2
      simp only [List.mem_singleton] at h2
      subst h2
      decide
  · exact pad10_ne_quote tr c h1

/-! ## Claim theorems -/

/-- C3, counterexample: parsing the claim's exact block
"@article{a,title={Foo {Bar} Baz},author={X}}" yields no "title" key at
all: bibtex2dic skips two characters after the bibtexkey comma, so the
first field key comes out as "itle". -/
theorem C3_first_key_truncated_cex :
    dget (bibtex2dic "@article\x7ba,title=\x7bFoo \x7bBar\x7d Baz\x7d,author=\x7bX\x7d\x7d")
      "title" = none := by
  decide

/-- C3, amended: on the claim's exact block the nested-brace value
"Foo {Bar} Baz" is preserved (located by brace-depth counting) and author
maps to "X", but the first field is keyed "itle" (its first character is
swallowed because the parser assumes one separator character after the
bibtexkey comma); with a space after that comma, "title" maps to
"Foo {Bar} Baz" as claimed. -/
theorem C3_nested_brace_parse :
    dget (bibtex2dic "@article\x7ba,title=\x7bFoo \x7bBar\x7d Baz\x7d,author=\x7bX\x7d\x7d")
        "itle" = some "Foo \x7bBar\x7d Baz" ∧
      dget (bibtex2dic "@article\x7ba,title=\x7bFoo \x7bBar\x7d Baz\x7d,author=\x7bX\x7d\x7d")
        "author" = some "X" ∧
      dget (bibtex2dic "@article\x7ba, title=\x7bFoo \x7bBar\x7d Baz\x7d,author=\x7bX\x7d\x7d")
        "title" = some "Foo \x7bBar\x7d Baz" ∧
      dget (bibtex2dic "@article\x7ba, title=\x7bFoo \x7bBar\x7d Baz\x7d,author=\x7bX\x7d\x7d")
        "author" = some "X" := by
  decide

/-- C5: in percent mode the sampling cap is floor(totalCitedBy * ppl / 100)
clamped up to 1 when totalCitedBy > 0 and the floor is 0, for every
non-negative totalCitedBy and ppl; in particular 57/3 gives 1, 10/3 gives 1
(clamped), 0/3 gives 0. -/
theorem C5_percent_sampling :
    (∀ citedby ppl maxpl : ℕ,
        max_progress_calc citedby ppl maxpl true = capSpecPercent citedby ppl) ∧
      max_progress_calc 57 3 0 true = 1 ∧
      max_progress_calc 10 3 0 true = 1 ∧
      max_progress_calc 0 3 0 true = 0 := by
  refine ⟨fun c p m => ?_, by decide, by decide, by decide⟩
  unfold max_progress_calc capSpecPercent
  rw [if_pos rfl]
  exact if_congr ⟨fun h => ⟨h.2, h.1⟩, fun h => ⟨h.2, h.1⟩⟩ rfl rfl

/-- C10: for every input string the bibtex parser terminates and returns a
mapping containing "type" and "bibtexkey": the fuel t.length + 2 always
suffices because each loop iteration strictly advances the scan position,
and the brace-matching search returns either the sentinel -1 or an index at
or after its start. -/
theorem C10_parser_total :
    (∀ s : String, ∃ d, bibtex2dicO s = some d ∧
        dmem d "type" = true ∧ dmem d "bibtexkey" = true ∧ bibtex2dic s = d) ∧
      (∀ (t : List Char) (ind : ℕ),
        findNextBracket t ind = -1 ∨ (ind : Int) ≤ findNextBracket t ind) := by
  constructor
  · intro s
    have hp1 : -1 ≤ pyFind s.data [','] (pyFind s.data ['\x7b'] 0) := pyFind_ge_neg_one _ _ _
    obtain ⟨d, hd, hkeys⟩ := bibtexLoop_total s.data (s.data.length + 2)
      (dset (dset [] "type" (String.mk (pySlice s.data 1 (pyFind s.data ['\x7b'] 0))))
        "bibtexkey" (String.mk (pySlice s.data ((pyFind s.data ['\x7b'] 0) + 1)
          (pyFind s.data [','] (pyFind s.data ['\x7b'] 0)))))
      (pyFind s.data [','] (pyFind s.data ['\x7b'] 0)) (by push_cast; omega)
    refine ⟨d, hd, ?_, ?_, ?_⟩
    · exact hkeys "type" (dmem_dset _ "bibtexkey" "type" _ (dmem_dset_self [] "type" _))
    · exact hkeys "bibtexkey" (dmem_dset_self _ "bibtexkey" _)
    · unfold bibtex2dic
      rw [show bibtex2dicO s = some d from hd]
  · intro t ind
    by_cases h : findNextBracket t ind = -1
    · exact Or.inl h
    · exact Or.inr (findNextBracket_ge t ind h)

/-- C4, counterexample: the Forbidden branch does not leave the attempt
counter unchanged (it falls through to the shared increment), and the
per-attempt escalation is 30 minutes of timer time (1,800,000 ms), not 30
seconds: with base timeout 300 the scheduled delay goes from 18,000,000 ms
at attempts = 0 to 19,800,000 ms at attempts = 1. -/
theorem C4_forbidden_increments_cex :
    (detect_captcha g0 pgForbiddenOnly 0 0).cls = Classification.Forbidden ∧
      (detect_captcha g0 pgForbiddenOnly 0 0).attempts ≠ g0.attempts ∧
      scheduledMs (detect_captcha g0 pgCaptchaOnly 0 0).timerMinutes = some 18000000 ∧
      scheduledMs (detect_captcha g1 pgCaptchaOnly 0 0).timerMinutes = some 19800000 ∧
      ¬ scheduledMs (detect_captcha g1 pgCaptchaOnly 0 0).timerMinutes =
          some (18000000 + 30 * 1000) := by
  have hf := detect_eq_forbidden g0 pgForbiddenOnly 0 0 (by decide) (by decide) (by decide)
  have hc0 := detect_eq_captcha g0 pgCaptchaOnly 0 0 (by decide)
  have hc1 := detect_eq_captcha g1 pgCaptchaOnly 0 0 (by decide)
  refine ⟨by rw [hf], by rw [hf]; decide, ?_, ?_, ?_⟩
  · rw [hc0]
    simp [scheduledMs, g0]
    norm_num
  · rw [hc1]
    simp [scheduledMs, g1]
    norm_num
  · rw [hc1]
    simp [scheduledMs, g1]
    norm_num

/-- C4, amended: a Captcha classification schedules
captchaBaseTimeout + attempts*30 timer units plus jitter jc when the
politeness flag is set, and increments the counter; Block likewise with
blockBaseTimeout and jitter jb; Forbidden schedules a fixed 1 timer unit,
which the timer start converts to exactly 60,000 ms (60 seconds), and ALSO
increments the counter.  One timer unit is one minute (the start call
multiplies by 60 * 1000), so the escalation step is 30 minutes. -/
theorem C4_reaction_policy (g : GuardState) (pg : Page) (jc jb : ℚ) :
    ((detect_captcha g pg jc jb).cls = Classification.Captcha →
        (detect_captcha g pg jc jb).attempts = g.attempts + 1 ∧
        (detect_captcha g pg jc jb).timerMinutes =
          some (g.timeoutCaptcha + (g.attempts : ℚ) * 30 +
            (if g.forceDelay then jc else 0))) ∧
      ((detect_captcha g pg jc jb).cls = Classification.Block →
        (detect_captcha g pg jc jb).attempts = g.attempts + 1 ∧
        (detect_captcha g pg jc jb).timerMinutes =
          some (g.timeoutBlock + (g.attempts : ℚ) * 30 +
            (if g.forceDelay then jb else 0))) ∧
      ((detect_captcha g pg jc jb).cls = Classification.Forbidden →
        (detect_captcha g pg jc jb).attempts = g.attempts + 1 ∧
        (detect_captcha g pg jc jb).timerMinutes = some 1 ∧
        scheduledMs (detect_captcha g pg jc jb).timerMinutes = some 60000) := by
  have harith1 : g.timeoutCaptcha +
      (if g.forceDelay then (g.attempts : ℚ) * 30 + jc else (g.attempts : ℚ) * 30) =
      g.timeoutCaptcha + (g.attempts : ℚ) * 30 + (if g.forceDelay then jc else 0) := by
    by_cases hfd : g.forceDelay <;> simp [hfd] <;> ring
  have harith2 : g.timeoutBlock +
      (if g.forceDelay then (g.attempts : ℚ) * 30 + jb else (g.attempts : ℚ) * 30) =
      g.timeoutBlock + (g.attempts : ℚ) * 30 + (if g.forceDelay then jb else 0) := by
    by_cases hfd : g.forceDelay <;> simp [hfd] <;> ring
  rcases detect_captcha_total g pg jc jb with heq | heq | heq | heq | heq <;> rw [heq]
  · refine ⟨fun _ => ⟨rfl, ?_⟩, fun hcls => by simp at hcls, fun hcls => by simp at hcls⟩
    rw [harith1]
  · refine ⟨fun hcls => by simp at hcls, fun _ => ⟨rfl, ?_⟩, fun hcls => by simp at hcls⟩
    rw [harith2]
  · refine ⟨fun hcls => by simp at hcls, fun hcls => by simp at hcls,
      fun _ => ⟨rfl, rfl, ?_⟩⟩
    simp [scheduledMs]
    norm_num
  · exact ⟨fun hcls => by simp at hcls, fun hcls => by simp at hcls,
      fun hcls => by simp at hcls⟩
  · exact ⟨fun hcls => by simp at hcls, fun hcls => by simp at hcls,
      fun hcls => by simp at hcls⟩

/-- C4, witness for the amended reaction policy, at a concrete captcha page
and a concrete forbidden page. -/
theorem C4_reaction_policy_witness :
    (detect_captcha g1 pgCaptchaOnly 0 0).cls = Classification.Captcha ∧
      (detect_captcha g1 pgCaptchaOnly 0 0).attempts = g1.attempts + 1 ∧
      (detect_captcha g0 pgForbiddenOnly 0 0).cls = Classification.Forbidden ∧
      scheduledMs (detect_captcha g0 pgForbiddenOnly 0 0).timerMinutes = some 60000 := by
  have h1 : (detect_captcha g1 pgCaptchaOnly 0 0).cls = Classification.Captcha := by
    rw [detect_eq_captcha g1 pgCaptchaOnly 0 0 (by decide)]
  have h2 : (detect_captcha g0 pgForbiddenOnly 0 0).cls = Classification.Forbidden := by
    rw [detect_eq_forbidden g0 pgForbiddenOnly 0 0 (by decide) (by decide) (by decide)]
  exact ⟨h1, ((C4_reaction_policy g1 pgCaptchaOnly 0 0).1 h1).1, h2,
    ((C4_reaction_policy g0 pgForbiddenOnly 0 0).2.2 h2).2.2⟩

/-- C6: page classification follows the claimed priority order: a confirmed
captcha element always yields Captcha; otherwise block phrasing in url or
text yields Block; otherwise the forbidden pattern yields Forbidden;
otherwise the suspicious-but-unconfirmed phrase alone yields FalseAlarm
with the attempt counter reset to 0 and no timer armed (zero delay); a page
with none of the signals is Clean, also resetting the counter. -/
theorem C6_classification_priority (g : GuardState) (pg : Page) (jc jb : ℚ) :
    ((pg.elemCaptchaNamed || pg.elemCaptchaId) = true →
        (detect_captcha g pg jc jb).cls = Classification.Captcha) ∧
      ((pg.elemCaptchaNamed || pg.elemCaptchaId) = false →
        (pg.urlBlockHint || pg.txtAutomatedQueries) = true →
        (detect_captcha g pg jc jb).cls = Classification.Block) ∧
      ((pg.elemCaptchaNamed || pg.elemCaptchaId) = false →
        (pg.urlBlockHint || pg.txtAutomatedQueries) = false →
        pg.txtForbiddenPattern = true →
        (detect_captcha g pg jc jb).cls = Classification.Forbidden) ∧
      ((pg.elemCaptchaNamed || pg.elemCaptchaId) = false →
        (pg.urlBlockHint || pg.txtAutomatedQueries) = false →
        pg.txtForbiddenPattern = false →
        pg.txtNotARobot = true →
        (detect_captcha g pg jc jb).cls = Classification.FalseAlarm ∧
          (detect_captcha g pg jc jb).attempts = 0 ∧
          (detect_captcha g pg jc jb).timerMinutes = none) ∧
      (pg.urlBlockHint = false → pg.txtAutomatedQueries = false →
        pg.elemCaptchaNamed = false → pg.txtForbiddenPattern = false →
        pg.txtNotARobot = false → pg.elemCaptchaId = false →
        (detect_captcha g pg jc jb).cls = Classification.Clean ∧
          (detect_captcha g pg jc jb).attempts = 0 ∧
          (detect_captcha g pg jc jb).timerMinutes = none) := by
  refine ⟨?_, ?_, ?_, ?_, ?_⟩
  · intro h
    rw [detect_eq_captcha g pg jc jb h]
  · intro hc hb
    rw [detect_eq_block g pg jc jb hc hb]
  · intro hc hb hf
    rw [detect_eq_forbidden g pg jc jb hc hb hf]
  · intro hc hb hf hr
    rw [detect_eq_falsealarm g pg jc jb hc hb hf hr]
    exact ⟨rfl, rfl, rfl⟩
  · intro h1 h2 h3 h4 h5 h6
    rw [detect_eq_clean g pg jc jb h1 h2 h3 h4 h5 h6]
    exact ⟨rfl, rfl, rfl⟩

/-- C6, witness: the suspicious phrase alone classifies as FalseAlarm,
resets a non-zero attempt counter to 0 and arms no timer. -/
theorem C6_classification_priority_witness :
    (pgRobotOnly.elemCaptchaNamed || pgRobotOnly.elemCaptchaId) = false ∧
      (pgRobotOnly.urlBlockHint || pgRobotOnly.txtAutomatedQueries) = false ∧
      pgRobotOnly.txtForbiddenPattern = false ∧
      pgRobotOnly.txtNotARobot = true ∧
      (detect_captcha g1 pgRobotOnly 0 0).cls = Classification.FalseAlarm ∧
      (detect_captcha g1 pgRobotOnly 0 0).attempts = 0 ∧
      (detect_captcha g1 pgRobotOnly 0 0).timerMinutes = none := by
  have h := (C6_classification_priority g1 pgRobotOnly 0 0).2.2.2.1
    (by decide) (by decide) (by decide) (by decide)
  exact ⟨by decide, by decide, by decide, by decide, h.1, h.2.1, h.2.2⟩

/-- C1, counterexample: a flush is not one transaction.  Flushing the batch
[recA, recB, recB] at level 1: the third record's write fails (duplicate
citation edge), yet after the flush both publication rows and both edges
written by the same batch are visible — nothing was rolled back. -/
theorem C1_flush_not_single_transaction_cex :
    (save_publication (dump_papers_to_db emptyStore 0 1 "P" [recA, recB]).1
        (dump_papers_to_db emptyStore 0 1 "P" [recA, recB]).2 1 "P" recB).ok = false ∧
      (dump_papers_to_db emptyStore 0 1 "P" [recA, recB, recB]).1.pubs.length = 2 ∧
      (dump_papers_to_db emptyStore 0 1 "P" [recA, recB, recB]).1.edges.length = 2 := by
  decide

/-- C1, amended: transactions are per record, not per flush.  Each
save_publication call either commits its publication insert and citation
edge together or rolls both back leaving the store and the record counter
unchanged, and a flush processes the batch as a sequence of such
independent per-record transactions, continuing past failures. -/
theorem C1_per_record_transaction :
    (∀ (st : Store) (tr lvl : ℕ) (par : String) (pub : PubRecord),
        (save_publication st tr lvl par pub).ok = false →
        (save_publication st tr lvl par pub).store = st ∧
          (save_publication st tr lvl par pub).total_records = tr) ∧
      (∀ (st : Store) (tr lvl : ℕ) (par : String) (d : PubRecord)
          (batch : List PubRecord),
        dump_papers_to_db st tr lvl par (d :: batch) =
          dump_papers_to_db (save_publication st tr lvl par d).store
            (save_publication st tr lvl par d).total_records lvl par batch) :=
  ⟨fun st tr lvl par pub h => save_fail_unchanged st tr lvl par pub h,
    fun st tr lvl par d batch => dump_cons st tr lvl par d batch⟩

/-- C1, witness: the failing third write of the counterexample batch leaves
the store exactly as it was before that record. -/
theorem C1_per_record_transaction_witness :
    (save_publication (dump_papers_to_db emptyStore 0 1 "P" [recA, recB]).1 2 1 "P"
        recB).ok = false ∧
      (save_publication (dump_papers_to_db emptyStore 0 1 "P" [recA, recB]).1 2 1 "P"
          recB).store = (dump_papers_to_db emptyStore 0 1 "P" [recA, recB]).1 := by
  have h : (save_publication (dump_papers_to_db emptyStore 0 1 "P" [recA, recB]).1 2 1 "P"
      recB).ok = false := by decide
  exact ⟨h, (C1_per_record_transaction.1 _ 2 1 "P" recB h).1⟩

/-- C2, counterexample: inserting the same edge twice is not ignored.  The
first save succeeds; the identical second save violates the primary key,
reports failure (returns False after rollback) instead of being ignored;
exactly one edge row remains. -/
theorem C2_duplicate_edge_not_ignored_cex :
    (save_publication emptyStore 0 1 "p" recA).ok = true ∧
      (save_publication (save_publication emptyStore 0 1 "p" recA).store
          (save_publication emptyStore 0 1 "p" recA).total_records 1 "p" recA).ok = false ∧
      (save_publication (save_publication emptyStore 0 1 "p" recA).store
          (save_publication emptyStore 0 1 "p" recA).total_records 1 "p"
          recA).store.edges.length = 1 := by
  decide

/-- C2, amended: inserting a citation edge whose natural key already exists
is treated as an error, not ignored: the primary-key violation is caught,
the record's whole transaction rolls back (store unchanged, False
returned), and the number of edge rows with that key is unchanged — so
after a first successful insert exactly one such row remains. -/
theorem C2_duplicate_edge_rolls_back (st : Store) (tr lvl : ℕ) (par : String)
    (pub : PubRecord) (hlvl : 0 < lvl)
    (hdup : (sqlDouble (save_publication st tr lvl par pub).pubid, sqlDouble par) ∈
      st.edges) :
    save_publication st tr lvl par pub =
        ⟨st, tr, false, (save_publication st tr lvl par pub).pubid⟩ ∧
      ((save_publication st tr lvl par pub).store.edges.filter
          (fun e => e == (sqlDouble (save_publication st tr lvl par pub).pubid,
            sqlDouble par))).length =
        (st.edges.filter
          (fun e => e == (sqlDouble (save_publication st tr lvl par pub).pubid,
            sqlDouble par))).length := by
  simp only [save_publication] at hdup ⊢
  by_cases hc : get_existing_pub_id st (escRec pub).bibtexkey (escRec pub).title
      (escRec pub).author = ""
  · rw [if_pos hc] at hdup ⊢
    rw [saveNew_pubid] at hdup ⊢
    rw [saveNew_dup_edge st tr lvl par _ hlvl hdup]
    exact ⟨rfl, rfl⟩
  · rw [if_neg hc] at hdup ⊢
    rw [saveExisting_pubid] at hdup ⊢
    rw [saveExisting_dup_edge st tr lvl par _ hlvl hdup]
    exact ⟨rfl, rfl⟩

/-- C2, witness: the rollback theorem applied to a concrete duplicate
insertion. -/
theorem C2_duplicate_edge_rolls_back_witness :
    0 < 1 ∧
      (sqlDouble (save_publication (save_publication emptyStore 0 1 "p" recB).store 1 1
          "p" recB).pubid, sqlDouble "p") ∈
        (save_publication emptyStore 0 1 "p" recB).store.edges ∧
      save_publication (save_publication emptyStore 0 1 "p" recB).store 1 1 "p" recB =
        ⟨(save_publication emptyStore 0 1 "p" recB).store, 1, false,
          (save_publication (save_publication emptyStore 0 1 "p" recB).store 1 1 "p"
            recB).pubid⟩ := by
  refine ⟨by decide, by decide, ?_⟩
  exact (C2_duplicate_edge_rolls_back (save_publication emptyStore 0 1 "p" recB).store
    1 1 "p" recB (by decide) (by decide)).1

/-- C7, counterexample: upsert idempotence fails for quote-containing
fields.  The publications INSERT stores values through single-quoted
literals while the dedup SELECTs probe through double-quoted literals, so
for a record whose title contains a double quote and whose author contains
an apostrophe all three lookups miss on the second upsert: a different
pubid is allocated, the re-insert violates the (BibtexKey, Title) primary
key, and the save returns failure and a different pubid instead of the
same one. -/
theorem C7_quoted_fields_break_idempotence_cex :
    (save_publication emptyStore 0 0 "" recQuoted).ok = true ∧
      (save_publication (save_publication emptyStore 0 0 "" recQuoted).store
          (save_publication emptyStore 0 0 "" recQuoted).total_records 0 ""
          recQuoted).ok = false ∧
      (save_publication (save_publication emptyStore 0 0 "" recQuoted).store
          (save_publication emptyStore 0 0 "" recQuoted).total_records 0 ""
          recQuoted).pubid ≠ (save_publication emptyStore 0 0 "" recQuoted).pubid := by
  decide

/-- C7, amended: the dedup lookup tries (bibtexkey, title) exact, then
(bibtexkey, title with python-collapsed apostrophes), then (bibtexkey,
author), each probe compared through double-quoted SQL literals, and the
first match returns the stored pubid.  Upsert idempotence holds for
records whose fields are free of quote characters: then the first upsert
allocates pubid = bibtexkey + "_" + zero-padded counter, advances the
counter, and upserting the same record again resolves to the same pubid
through the first lookup, inserting no second publication row — exactly
one row with that (bibtexkey, title) remains.  (For quote-containing
fields the stored and probed values differ and idempotence fails, per the
counterexample.) -/
theorem C7_upsert_dedup_idempotent :
    (∀ (st : Store) (bib t a : String) (r : PubRow),
        st.pubs.find? (fun x => x.bibtexkey == sqlDouble bib &&
          x.title == sqlDouble t) = some r →
        get_existing_pub_id st bib t a = r.pubid) ∧
      (∀ (st : Store) (bib t a : String) (r : PubRow),
        st.pubs.find? (fun x => x.bibtexkey == sqlDouble bib &&
          x.title == sqlDouble t) = none →
        st.pubs.find? (fun x => x.bibtexkey == sqlDouble bib &&
          x.title == sqlDouble (unquoteTitle t)) = some r →
        get_existing_pub_id st bib t a = r.pubid) ∧
      (∀ (st : Store) (bib t a : String) (r : PubRow),
        st.pubs.find? (fun x => x.bibtexkey == sqlDouble bib &&
          x.title == sqlDouble t) = none →
        st.pubs.find? (fun x => x.bibtexkey == sqlDouble bib &&
          x.title == sqlDouble (unquoteTitle t)) = none →
        st.pubs.find? (fun x => x.bibtexkey == sqlDouble bib &&
          x.author == sqlDouble a) = some r →
        get_existing_pub_id st bib t a = r.pubid) ∧
      (∀ (st : Store) (tr lvl : ℕ) (par : String) (pub : PubRecord),
        quoteFree pub.bibtexkey = true → quoteFree pub.title = true →
        quoteFree pub.author = true →
        (∀ r ∈ st.pubs, r.bibtexkey ≠ pub.bibtexkey) →
        (sqlDouble (pub.bibtexkey ++ "_" ++ pad10 tr), sqlDouble par) ∉ st.edges →
        (save_publication st tr lvl par pub).ok = true ∧
          (save_publication st tr lvl par pub).pubid =
            pub.bibtexkey ++ "_" ++ pad10 tr ∧
          (save_publication st tr lvl par pub).total_records = tr + 1 ∧
          ((save_publication st tr lvl par pub).store.pubs.filter
              (fun x => x.bibtexkey == pub.bibtexkey &&
                x.title == pub.title)).length = 1 ∧
          (save_publication (save_publication st tr lvl par pub).store
              (save_publication st tr lvl par pub).total_records lvl par pub).pubid =
            (save_publication st tr lvl par pub).pubid ∧
          (save_publication (save_publication st tr lvl par pub).store
              (save_publication st tr lvl par pub).total_records lvl par
              pub).store.pubs =
            (save_publication st tr lvl par pub).store.pubs) := by
  refine ⟨?_, ?_, ?_, ?_⟩
  · intro st bib t a r h1
    unfold get_existing_pub_id
    simp only [h1]
  · intro st bib t a r h1 h2
    unfold get_existing_pub_id
    simp only [h1, h2]
  · intro st bib t a r h1 h2 h3
    unfold get_existing_pub_id
    simp only [h1, h2, h3]
  · intro st tr lvl par pub hq1 hq2 hq3 hno hnoedge
    have hbib := quoteFree_chars pub.bibtexkey hq1
    have htit := quoteFree_chars pub.title hq2
    have haut := quoteFree_chars pub.author hq3
    have hesc : escRec pub = pub := escRec_id pub hq1 hq2 hq3
    have hbibD : sqlDouble pub.bibtexkey = pub.bibtexkey :=
      sqlDouble_id _ (fun c hc => (hbib c hc).2)
    have hbibS : sqlSingle pub.bibtexkey = pub.bibtexkey :=
      sqlSingle_id _ (fun c hc => (hbib c hc).1)
    have htitD : sqlDouble pub.title = pub.title :=
      sqlDouble_id _ (fun c hc => (htit c hc).2)
    have htitS : sqlSingle pub.title = pub.title :=
      sqlSingle_id _ (fun c hc => (htit c hc).1)
    have hautS : sqlSingle pub.author = pub.author :=
      sqlSingle_id _ (fun c hc => (haut c hc).1)
    have hpidchars := pubid_ne_quote pub.bibtexkey tr hbib
    have hpidS : sqlSingle (pub.bibtexkey ++ "_" ++ pad10 tr) =
        pub.bibtexkey ++ "_" ++ pad10 tr :=
      sqlSingle_id _ (fun c hc => (hpidchars c hc).1)
    have hfresh := save_fresh st tr lvl par pub
      (by rw [hesc, hbibD]; exact hno)
      (by rw [hesc, hbibS]; exact hno)
      (by rw [hesc]; exact hnoedge)
    rw [hesc] at hfresh
    have hstored : storedRow ⟨pub.bibtexkey, pub.title, pub.author,
        pub.bibtexkey ++ "_" ++ pad10 tr⟩ =
        ⟨pub.bibtexkey, pub.title, pub.author, pub.bibtexkey ++ "_" ++ pad10 tr⟩ := by
      show (⟨sqlSingle pub.bibtexkey, sqlSingle pub.title, sqlSingle pub.author,
        sqlSingle (pub.bibtexkey ++ "_" ++ pad10 tr)⟩ : PubRow) = _
      rw [hbibS, htitS, hautS, hpidS]
    rw [hstored] at hfresh
    have hnoD : ∀ r ∈ st.pubs, r.bibtexkey ≠ sqlDouble pub.bibtexkey := by
      rw [hbibD]; exact hno
    have hget2 : get_existing_pub_id (save_publication st tr lvl par pub).store
        pub.bibtexkey pub.title pub.author = pub.bibtexkey ++ "_" ++ pad10 tr := by
      rw [hfresh]
      exact get_existing_appended st.pubs _ pub.bibtexkey pub.title pub.author
        ⟨pub.bibtexkey, pub.title, pub.author, pub.bibtexkey ++ "_" ++ pad10 tr⟩
        hnoD (by rw [hbibD]) (by rw [htitD])
    have hpidne : pub.bibtexkey ++ "_" ++ pad10 tr ≠ "" := by
      intro hcon
      have hlen := congrArg String.length hcon
      rw [String.length_append, String.length_append] at hlen
      have hu : String.length "_" = 1 := rfl
      have hz : String.length "" = 0 := rfl
      omega
    have hsave2 := save_existing_found (save_publication st tr lvl par pub).store
      (save_publication st tr lvl par pub).total_records lvl par pub
      (pub.bibtexkey ++ "_" ++ pad10 tr) (by rw [hesc]; exact hget2) hpidne
    refine ⟨by rw [hfresh], by rw [hfresh], by rw [hfresh], ?_, ?_, ?_⟩
    · rw [hfresh]
      have hnil : st.pubs.filter (fun x => x.bibtexkey == pub.bibtexkey &&
          x.title == pub.title) = [] := by
        rw [List.filter_eq_nil_iff]
        intro x hx hx'
        simp only [Bool.and_eq_true, beq_iff_eq] at hx'
        exact hno x hx hx'.1
      simp [List.filter_append, hnil]
    · rw [hsave2, saveExisting_pubid, hfresh]
    · rw [hsave2, saveExisting_store_pubs]

/-- C7, witness: upserting a concrete quote-free fresh record twice. -/
theorem C7_upsert_dedup_idempotent_witness :
    quoteFree seedRec.bibtexkey = true ∧ quoteFree seedRec.title = true ∧
      quoteFree seedRec.author = true ∧
      (∀ r ∈ emptyStore.pubs, r.bibtexkey ≠ seedRec.bibtexkey) ∧
      (sqlDouble (seedRec.bibtexkey ++ "_" ++ pad10 0), sqlDouble "par") ∉
        emptyStore.edges ∧
      (save_publication emptyStore 0 1 "par" seedRec).ok = true ∧
      (save_publication (save_publication emptyStore 0 1 "par" seedRec).store
          (save_publication emptyStore 0 1 "par" seedRec).total_records 1 "par"
          seedRec).pubid = (save_publication emptyStore 0 1 "par" seedRec).pubid := by
  have h := C7_upsert_dedup_idempotent.2.2.2 emptyStore 0 1 "par" seedRec
    (by decide) (by decide) (by decide)
    (by intro r hr; simp [emptyStore] at hr) (by decide)
  exact ⟨by decide, by decide, by decide, by intro r hr; simp [emptyStore] at hr,
    by decide, h.1, h.2.2.2.2.1⟩

/-- C8: when a completion classifies as Captcha, Block or Forbidden the
backoff timer is armed, the handler flushes the whole pending batch into
the store and clears it, and every cursor field (level, row, progress,
level limit, max level, done flag) is untouched, so the deferred resumption
re-issues the citing-list request at the same progress offset. -/
theorem C8_blocked_flush_preserves_cursor (m : Crawl) (g : GuardState) (pg : Page)
    (jc jb : ℚ)
    (hcls : (detect_captcha g pg jc jb).cls = Classification.Captcha ∨
        (detect_captcha g pg jc jb).cls = Classification.Block ∨
        (detect_captcha g pg jc jb).cls = Classification.Forbidden) :
    (detect_captcha g pg jc jb).timerMinutes.isSome = true ∧
      (loadFinished_blocked m).to_be_dumped = [] ∧
      (loadFinished_blocked m).store =
        (dump_papers_to_db m.store m.total_records m.current_level m.parent_bibtex
          m.to_be_dumped).1 ∧
      (loadFinished_blocked m).total_records =
        (dump_papers_to_db m.store m.total_records m.current_level m.parent_bibtex
          m.to_be_dumped).2 ∧
      (loadFinished_blocked m).current_level = m.current_level ∧
      (loadFinished_blocked m).current_row = m.current_row ∧
      (loadFinished_blocked m).progress = m.progress ∧
      (loadFinished_blocked m).level_limit = m.level_limit ∧
      (loadFinished_blocked m).max_level = m.max_level ∧
      (loadFinished_blocked m).scrape_done = m.scrape_done ∧
      (∀ citeid, do_continue_url citeid (loadFinished_blocked m).progress =
          do_continue_url citeid m.progress) := by
  have htimer : (detect_captcha g pg jc jb).timerMinutes.isSome = true := by
    rcases detect_captcha_total g pg jc jb with heq | heq | heq | heq | heq <;>
      rw [heq] at hcls ⊢ <;> simp_all
  unfold loadFinished_blocked
  by_cases hemp : m.to_be_dumped.isEmpty
  · rw [if_pos hemp]
    have he : m.to_be_dumped = [] := List.isEmpty_iff.mp hemp
    refine ⟨htimer, he, ?_, ?_, rfl, rfl, rfl, rfl, rfl, rfl, fun citeid => rfl⟩
    · rw [he]; rfl
    · rw [he]; rfl
  · rw [if_neg hemp]
    exact ⟨htimer, rfl, rfl, rfl, rfl, rfl, rfl, rfl, rfl, rfl, fun citeid => rfl⟩

/-- C8, witness: a captcha completion on a machine with two pending
records flushes them and keeps the row/progress cursor. -/
theorem C8_blocked_flush_preserves_cursor_witness :
    (detect_captcha g0 pgCaptchaOnly 0 0).cls = Classification.Captcha ∧
      (loadFinished_blocked crawlC8).to_be_dumped = [] ∧
      (loadFinished_blocked crawlC8).current_row = crawlC8.current_row ∧
      (loadFinished_blocked crawlC8).progress = crawlC8.progress := by
  have h1 : (detect_captcha g0 pgCaptchaOnly 0 0).cls = Classification.Captcha := by
    rw [detect_eq_captcha g0 pgCaptchaOnly 0 0 (by decide)]
  have h := C8_blocked_flush_preserves_cursor crawlC8 g0 pgCaptchaOnly 0 0 (Or.inl h1)
  exact ⟨h1, h.2.1, h.2.2.2.2.2.1, h.2.2.2.2.2.2.1⟩

/-- C9, counterexample: a batch flush can break 0 ≤ current_row <
level_limit.  crawlC9 satisfies all claimed invariants before the flush,
but its batch only re-saves the already-stored seed, so the completed level
adds no publication row and the recomputed level_limit equals current_row
after the advance. -/
theorem C9_row_bound_cex :
    crawlC9.current_row < crawlC9.level_limit ∧
      crawlC9.current_level < crawlC9.max_level ∧
      crawlC9.scrape_done = false ∧
      crawlC9.level_limit ≤ crawlC9.store.pubs.length ∧
      ¬ (dump_papers_flush crawlC9).current_row < (dump_papers_flush crawlC9).level_limit := by
  decide

/-- C9, amended: with ≤ in place of < the invariants hold.  At creation
(non-empty seed list, entered level bound at least 1) the header satisfies
current_row < level_limit, current_level ≤ max_level, scrape_done iff
current_level = max_level, and progress = 0.  Every flush from a state with
current_row < level_limit, current_level < max_level and level_limit not
exceeding the stored publication count yields current_row ≤ level_limit
(equality exactly when the completed level added no net rows),
current_level ≤ max_level, the scrape_done equivalence, progress reset to
0, and current_row advanced by one. -/
theorem C9_progress_invariants :
    (∀ (ppl maxpl mli : ℕ) (up : Bool) (seeds : List PubRecord),
        seeds ≠ [] → 1 ≤ mli →
        (create_db_init ppl maxpl mli up seeds).current_row <
            (create_db_init ppl maxpl mli up seeds).level_limit ∧
          (create_db_init ppl maxpl mli up seeds).current_level ≤
            (create_db_init ppl maxpl mli up seeds).max_level ∧
          ((create_db_init ppl maxpl mli up seeds).scrape_done = true ↔
            (create_db_init ppl maxpl mli up seeds).current_level =
              (create_db_init ppl maxpl mli up seeds).max_level) ∧
          (create_db_init ppl maxpl mli up seeds).progress = 0) ∧
      (∀ m : Crawl,
        m.current_row < m.level_limit → m.current_level < m.max_level →
        m.level_limit ≤ m.store.pubs.length →
        (dump_papers_flush m).current_row ≤ (dump_papers_flush m).level_limit ∧
          (dump_papers_flush m).current_level ≤ (dump_papers_flush m).max_level ∧
          ((dump_papers_flush m).scrape_done = true ↔
            (dump_papers_flush m).current_level = (dump_papers_flush m).max_level) ∧
          (dump_papers_flush m).progress = 0 ∧
          (dump_papers_flush m).current_row = m.current_row + 1 ∧
          (dump_papers_flush m).level_limit ≤
            (dump_papers_flush m).store.pubs.length) := by
  constructor
  · intro ppl maxpl mli up seeds hs hm
    refine ⟨?_, ?_, ?_, ?_⟩
    · simpa [create_db_init] using List.length_pos.mpr hs
    · simp [create_db_init]
    · simp [create_db_init]
      omega
    · simp [create_db_init]
  · intro m h1 h2 h3
    have hle : m.store.pubs.length ≤
        (dump_papers_to_db m.store m.total_records m.current_level m.parent_bibtex
          m.to_be_dumped).1.pubs.length :=
      dump_pubs_le m.current_level m.parent_bibtex m.to_be_dumped m.store m.total_records
    simp only [dump_papers_flush]
    by_cases hrow : m.current_row + 1 = m.level_limit
    · rw [if_pos hrow]
      refine ⟨by simp; omega, by simp; omega, by simp [beq_iff_eq], by simp, by simp,
        by simp⟩
    · rw [if_neg hrow]
      refine ⟨by simp; omega, by simp; omega, by simp [beq_iff_eq], by simp, by simp,
        by simp; omega⟩

/-- C9, witness: the creation invariants at one seed with level bound 2,
and the flush invariants at the crawlC9 machine. -/
theorem C9_progress_invariants_witness :
    ([recA] ≠ ([] : List PubRecord) ∧ 1 ≤ 2 ∧
        (create_db_init 3 3 2 true [recA]).progress = 0) ∧
      (crawlC9.current_row < crawlC9.level_limit ∧
        (dump_papers_flush crawlC9).current_row ≤ (dump_papers_flush crawlC9).level_limit) := by
  refine ⟨⟨by decide, by decide, ?_⟩, ⟨by decide, ?_⟩⟩
  · exact (C9_progress_invariants.1 3 3 2 true [recA] (by decide) (by decide)).2.2.2
  · exact (C9_progress_invariants.2 crawlC9 (by decide) (by decide) (by decide)).1

end Citenet
